import Mathlib

/-!
Verification of the prediction-lifecycle core of the stock-prediction
tracker: the status classifier (`price_tracker.determine_status`), the
movement computation (`price_tracker.calculate_movement`), the prediction
store (`database.add_article`, `database.check_for_duplicates`,
`database.get_pending_articles`, `database.update_article_status`,
`database.mark_as_duplicate`), the refresh cycle (`app.update_prices`),
the ingestion step (`app.collect_articles` loop body), and the claim
extractor (`scraper.extract_ticker_and_percentage`).

Machine floats are modelled as exact rationals; Python `round(x, 2)` is
modelled as round-half-to-even at two decimal places.  Timestamp strings
are modelled by the type `TS`: a timestamp either parses to a point in
time measured in hours (`TS.valid`) or fails to parse (`TS.invalid`),
mirroring `datetime.fromisoformat` which either returns a datetime or
raises.  The external price oracle (yfinance) is modelled as a function
parameter `price : String → Option PriceData`.
-/

namespace StockTracker

/-! ### StatusClassifier: `PriceTracker.determine_status` -/

/-- Embedding of `PriceTracker.determine_status` (price_tracker.py lines
142-178).  The `direction` parameter is kept because the source accepts
it, even though the body never reads it. -/
def determine_status (claimed_percentage actual_movement_pct : ℚ)
    (direction : String) (is_market_closed : Bool) : String :=
  let claimed_direction : String := if claimed_percentage > 0 then "up" else "down"
  let actual_direction : String := if actual_movement_pct > 0 then "up" else "down"
  if claimed_direction ≠ actual_direction ∧ is_market_closed then "MISS"
  else
    let gap : ℚ := |(|claimed_percentage|) - (|actual_movement_pct|)|
    if gap ≤ 5 ∧ claimed_direction = actual_direction then "HIT"
    else if gap ≤ 10 ∧ claimed_direction = actual_direction then
      if is_market_closed then "PARTIAL" else "PENDING"
    else if is_market_closed then "MISS"
    else "PENDING"

/-- The classification rules exactly as the specification words them
(spec section 4.4): claimedDir is up iff claimed% > 0, actualDir is up
iff actual% > 0, then the ordered rule chain MISS / HIT / PARTIAL-or-
PENDING / MISS / PENDING.  Written from the spec text, to be compared
with `determine_status`, which is written from the source. -/
def classifySpec (c a : ℚ) (m : Bool) : String :=
  let claimedDir : String := if c > 0 then "up" else "down"
  let actualDir : String := if a > 0 then "up" else "down"
  if claimedDir ≠ actualDir ∧ m then "MISS"
  else
    let gap : ℚ := |(|c|) - (|a|)|
    if gap ≤ 5 ∧ claimedDir = actualDir then "HIT"
    else if gap ≤ 10 ∧ claimedDir = actualDir then
      if m then "PARTIAL" else "PENDING"
    else if m then "MISS"
    else "PENDING"

/-! ### PriceOracle: `PriceTracker.calculate_movement` -/

/-- Round a rational to the nearest integer, ties to even: the model of
Python `round` applied at integer precision. -/
def roundHalfEven (x : ℚ) : ℤ :=
  let n : ℤ := ⌊x⌋
  let frac : ℚ := x - (n : ℚ)
  if frac < 1 / 2 then n
  else if 1 / 2 < frac then n + 1
  else if n % 2 = 0 then n else n + 1

/-- Model of Python `round(x, 2)`. -/
def round2 (x : ℚ) : ℚ := ((roundHalfEven (x * 100) : ℤ) : ℚ) / 100

/-- Embedding of `PriceTracker.calculate_movement` (price_tracker.py
lines 110-119): percentage movement from previous close to current
price, rounded to two decimals, and 0.0 when the previous close is 0. -/
def calculate_movement (previous_close current_price : ℚ) : ℚ :=
  if previous_close = 0 then 0
  else round2 (((current_price - previous_close) / previous_close) * 100)

/-! ### Theorems about the classifier and the movement computation -/

/-- C1: for every claimed percentage, actual percentage, direction and
market-closed flag, `determine_status` follows the spec's ordered rules
(claimedDir up iff claimed > 0, MISS on direction mismatch at close,
HIT when gap ≤ 5 with agreeing directions regardless of market state,
PARTIAL/PENDING at gap ≤ 10 depending on the market flag, then MISS at
close, else PENDING). -/
theorem determine_status_follows_spec :
    ∀ (c a : ℚ) (d : String) (m : Bool),
      determine_status c a d m = classifySpec c a m := by
  intro c a d m
  rfl

/-- C9: with the market closed, `determine_status` always returns one of
HIT, PARTIAL or MISS — never PENDING. -/
theorem determine_status_closed_terminal :
    ∀ (c a : ℚ) (d : String),
      determine_status c a d true = "HIT" ∨
      determine_status c a d true = "PARTIAL" ∨
      determine_status c a d true = "MISS" := by
  intro c a d
  unfold determine_status
  dsimp only
  split_ifs <;> simp_all

/-- C10: the result of `determine_status` does not depend on the
`direction` argument: any two direction strings give the same status,
because the claimed direction is re-derived from the sign of the claimed
percentage and the argument is never read. -/
theorem determine_status_ignores_direction :
    ∀ (c a : ℚ) (m : Bool) (d₁ d₂ : String),
      determine_status c a d₁ m = determine_status c a d₂ m := by
  intro c a m d₁ d₂
  rfl

/-- C6: `calculate_movement p c` equals `round(((c - p) / p) × 100, 2)`
whenever p ≠ 0, equals 0 when p = 0, and in particular
`calculate_movement 100 125 = 25`. -/
theorem calculate_movement_formula :
    (∀ p c : ℚ, p ≠ 0 →
       calculate_movement p c = round2 (((c - p) / p) * 100)) ∧
    (∀ c : ℚ, calculate_movement 0 c = 0) ∧
    calculate_movement 100 125 = 25 := by
  refine ⟨fun p c hp => ?_, fun c => ?_, ?_⟩
  · simp [calculate_movement, hp]
  · simp [calculate_movement]
  · norm_num [calculate_movement, round2, roundHalfEven]

/-- Witness for C6: the non-zero branch of the formula evaluated at the
concrete input previousClose = 2, currentPrice = 3. -/
theorem calculate_movement_formula_witness :
    (2 : ℚ) ≠ 0 ∧ calculate_movement 2 3 = round2 (((3 - 2) / 2) * 100) :=
  ⟨by norm_num, calculate_movement_formula.1 2 3 (by norm_num)⟩

/-! ### PredictionStore: the database model (database.py) -/

/-- Model of a timestamp string: it either parses (to a point in time
measured in hours) or it does not, mirroring `datetime.fromisoformat`. -/
inductive TS where
  | valid (hours : ℚ)
  | invalid (raw : String)
deriving DecidableEq

/-- Model of `datetime.fromisoformat` applied to a stored timestamp. -/
def parseTS : TS → Option ℚ
  | .valid h => some h
  | .invalid _ => none

/-- One row of the `articles` table (database.py lines 27-41). -/
structure Article where
  id : Nat
  ticker : String
  claimed_percentage : ℚ
  direction : String
  article_timestamp : TS
  source_name : String
  article_url : String
  headline : String
  status : String
  is_duplicate : Bool
  collection_date : String
deriving DecidableEq

/-- One row of the `price_snapshots` table (database.py lines 44-55). -/
structure Snapshot where
  article_id : Nat
  previous_close : ℚ
  current_price : ℚ
  actual_movement_pct : ℚ
  gap : ℚ
deriving DecidableEq

/-- The persistent store: the two tables the claims touch, plus the
AUTOINCREMENT counter backing `articles.id`. -/
structure DB where
  articles : List Article
  snapshots : List Snapshot
  next_id : Nat
deriving DecidableEq

/-- Embedding of `Database.add_article` (database.py lines 97-126):
insert a new PENDING row, or return no id and leave the store unchanged
when `article_url` collides with an existing row (the UNIQUE constraint
raises IntegrityError before any commit). -/
def add_article (db : DB) (ticker : String) (claimed_percentage : ℚ)
    (direction : String) (article_timestamp : TS)
    (source_name article_url headline collection_date : String) :
    Option Nat × DB :=
  if db.articles.any (fun a => a.article_url == article_url) then (none, db)
  else
    let article_id := db.next_id
    (some article_id,
     { db with
        articles := db.articles ++
          [{ id := article_id, ticker := ticker,
             claimed_percentage := claimed_percentage, direction := direction,
             article_timestamp := article_timestamp,
             source_name := source_name, article_url := article_url,
             headline := headline, status := "PENDING",
             is_duplicate := false, collection_date := collection_date }],
        next_id := db.next_id + 1 })

/-- Embedding of `Database.update_article_status` (database.py lines
154-172): `UPDATE articles SET status = ? WHERE id = ?`. -/
def update_article_status (db : DB) (article_id : Nat) (status : String) : DB :=
  { db with
      articles := db.articles.map (fun a =>
        if a.id = article_id then { a with status := status } else a) }

/-- Embedding of `Database.mark_as_duplicate` (database.py lines
174-192): `UPDATE articles SET is_duplicate = 1 WHERE id = ?`. -/
def mark_as_duplicate (db : DB) (article_id : Nat) : DB :=
  { db with
      articles := db.articles.map (fun a =>
        if a.id = article_id then { a with is_duplicate := true } else a) }

/-- Embedding of `Database.get_pending_articles` (database.py lines
225-252): `SELECT ... FROM articles WHERE status = 'PENDING'`. -/
def get_pending_articles (db : DB) : List Article :=
  db.articles.filter (fun a => a.status == "PENDING")

/-- Embedding of `Database.add_price_snapshot` (database.py lines
128-152). -/
def add_price_snapshot (db : DB) (article_id : Nat)
    (previous_close current_price actual_movement_pct gap : ℚ) : DB :=
  { db with
      snapshots := db.snapshots ++
        [{ article_id := article_id, previous_close := previous_close,
           current_price := current_price,
           actual_movement_pct := actual_movement_pct, gap := gap }] }

/-- Embedding of `Database.check_for_duplicates` (database.py lines
320-359): the SQL filter keeps rows with the same ticker, the same
collection date and claimed-percentage difference ≤ 3; the Python loop
then keeps those whose timestamp parses and lies within 2 hours of the
incoming timestamp (an unparseable stored timestamp is skipped with
`continue`; an unparseable incoming timestamp falls back to `now`). -/
def check_for_duplicates (db : DB) (now : ℚ) (ticker : String)
    (claimed_percentage : ℚ) (article_timestamp : TS)
    (collection_date : String) : List Nat :=
  let article_time : ℚ := (parseTS article_timestamp).getD now
  let rows := db.articles.filter (fun a =>
    a.ticker == ticker && a.collection_date == collection_date &&
      decide (|a.claimed_percentage - claimed_percentage| ≤ 3))
  rows.filterMap (fun a =>
    match parseTS a.article_timestamp with
    | none => none
    | some existing_time =>
      if |article_time - existing_time| ≤ 2 then some a.id else none)

/-! ### The refresh cycle: `app.update_prices` (app.py lines 242-280) -/

/-- Price data returned by `PriceTracker.get_price_data` for one ticker;
the external oracle itself is modelled as `String → Option PriceData`. -/
structure PriceData where
  previous_close : ℚ
  current_price : ℚ
  actual_movement_pct : ℚ

/-- Body of the per-article loop of `app.update_prices`: skip the
article when the oracle has no data, otherwise record a snapshot,
classify, and write the status back. -/
def update_step (price : String → Option PriceData) (closed : Bool)
    (acc : DB × Nat) (article : Article) : DB × Nat :=
  match price article.ticker with
  | none => acc
  | some pd =>
    let gap := article.claimed_percentage - pd.actual_movement_pct
    let db1 := add_price_snapshot acc.1 article.id pd.previous_close
      pd.current_price pd.actual_movement_pct gap
    let status := determine_status article.claimed_percentage
      pd.actual_movement_pct article.direction closed
    (update_article_status db1 article.id status, acc.2 + 1)

/-- Embedding of `app.update_prices` (app.py lines 242-280): fetch the
pending articles, then process each in turn, counting the updates. -/
def update_prices (db : DB) (price : String → Option PriceData)
    (closed : Bool) : DB × Nat :=
  (get_pending_articles db).foldl (update_step price closed) (db, 0)

/-! ### Theorems about the store and the refresh cycle -/

/-- C5 helper: an `any` scan over stored URLs is false when no stored
article carries the probed URL. -/
theorem any_url_eq_false (l : List Article) (u : String)
    (h : ∀ a ∈ l, a.article_url ≠ u) :
    l.any (fun a => a.article_url == u) = false := by
  simp only [List.any_eq_false]
  intro a ha
  simpa using h a ha

/-- C5: `article_url` is the idempotency key of ingestion — after a
first successful insert of a URL, a second insert with the same URL
returns no id and leaves the store byte-for-byte unchanged, and exactly
one stored row carries that URL. -/
theorem add_article_url_idempotent (db : DB)
    (t₁ t₂ d₁ d₂ s₁ s₂ hl₁ hl₂ dt₁ dt₂ u : String) (p₁ p₂ : ℚ)
    (ts₁ ts₂ : TS)
    (hfresh : ∀ a ∈ db.articles, a.article_url ≠ u) :
    (∃ i, (add_article db t₁ p₁ d₁ ts₁ s₁ u hl₁ dt₁).1 = some i) ∧
    (add_article (add_article db t₁ p₁ d₁ ts₁ s₁ u hl₁ dt₁).2
        t₂ p₂ d₂ ts₂ s₂ u hl₂ dt₂).1 = none ∧
    (add_article (add_article db t₁ p₁ d₁ ts₁ s₁ u hl₁ dt₁).2
        t₂ p₂ d₂ ts₂ s₂ u hl₂ dt₂).2
      = (add_article db t₁ p₁ d₁ ts₁ s₁ u hl₁ dt₁).2 ∧
    ((add_article db t₁ p₁ d₁ ts₁ s₁ u hl₁ dt₁).2.articles.filter
        (fun a => a.article_url == u)).length = 1 := by
  have hany := any_url_eq_false db.articles u hfresh
  have hfilter : db.articles.filter (fun a => a.article_url == u) = [] := by
    simp only [List.filter_eq_nil_iff, beq_iff_eq]
    intro a ha
    exact hfresh a ha
  refine ⟨⟨db.next_id, ?_⟩, ?_, ?_, ?_⟩
  · simp [add_article, hany]
  · simp [add_article, hany]
  · simp [add_article, hany]
  · simp [add_article, hany, List.filter_append, hfilter]

/-- Witness for C5: idempotent insertion on an initially empty store. -/
theorem add_article_url_idempotent_witness :
    (∃ i, (add_article ⟨[], [], 1⟩ "AAPL" 25 "up" (TS.valid 10) "Yahoo Finance"
        "https://x/1" "h1" "2025-01-02").1 = some i) ∧
    (add_article (add_article ⟨[], [], 1⟩ "AAPL" 25 "up" (TS.valid 10)
        "Yahoo Finance" "https://x/1" "h1" "2025-01-02").2
        "AAPL" 26 "up" (TS.valid 11) "MarketWatch" "https://x/1" "h2"
        "2025-01-02").1 = none ∧
    (add_article (add_article ⟨[], [], 1⟩ "AAPL" 25 "up" (TS.valid 10)
        "Yahoo Finance" "https://x/1" "h1" "2025-01-02").2
        "AAPL" 26 "up" (TS.valid 11) "MarketWatch" "https://x/1" "h2"
        "2025-01-02").2
      = (add_article ⟨[], [], 1⟩ "AAPL" 25 "up" (TS.valid 10) "Yahoo Finance"
        "https://x/1" "h1" "2025-01-02").2 ∧
    ((add_article ⟨[], [], 1⟩ "AAPL" 25 "up" (TS.valid 10) "Yahoo Finance"
        "https://x/1" "h1" "2025-01-02").2.articles.filter
        (fun a => a.article_url == "https://x/1")).length = 1 :=
  add_article_url_idempotent ⟨[], [], 1⟩ "AAPL" "AAPL" "up" "up"
    "Yahoo Finance" "MarketWatch" "h1" "h2" "2025-01-02" "2025-01-02"
    "https://x/1" 25 26 (TS.valid 10) (TS.valid 11) (by simp)

/-- C2 helper: a status write targeting one id leaves every row with a
different id untouched. -/
theorem filter_update_article_status (l : List Article) (i j : Nat)
    (s : String) (h : i ≠ j) :
    (l.map (fun a => if a.id = i then { a with status := s } else a)).filter
        (fun b => b.id == j)
      = l.filter (fun b => b.id == j) := by
  induction l with
  | nil => rfl
  | cons a l ih =>
    simp only [List.map_cons, List.filter_cons]
    by_cases hai : a.id = i
    · have hid : ((if a.id = i then { a with status := s } else a).id == j)
          = false := by
        simp [hai, h]
      have hid2 : (a.id == j) = false := by
        simp [hai, h]
      simp [hid, hid2, ih]
    · by_cases haj : a.id = j
      · simp [hai, haj, ih, Ne.symm h]
      · simp [hai, haj, ih]

/-- C2 helper: folding the refresh step over any list of articles whose
ids all differ from `j` leaves the rows with id `j` unchanged. -/
theorem update_fold_preserves_other_ids
    (price : String → Option PriceData) (closed : Bool) (j : Nat) :
    ∀ (l : List Article) (db : DB) (n : Nat),
      (∀ art ∈ l, art.id ≠ j) →
      ((l.foldl (update_step price closed) (db, n)).1.articles.filter
          (fun b => b.id == j))
        = db.articles.filter (fun b => b.id == j) := by
  intro l
  induction l with
  | nil => intro db n _; rfl
  | cons a l ih =>
    intro db n h
    have ha : a.id ≠ j := h a (List.mem_cons_self a l)
    have hl : ∀ art ∈ l, art.id ≠ j := fun art hart =>
      h art (List.mem_cons_of_mem a hart)
    simp only [List.foldl_cons]
    cases hp : price a.ticker with
    | none =>
      rw [show update_step price closed (db, n) a = (db, n) by
        simp [update_step, hp]]
      exact ih db n hl
    | some pd =>
      rw [show update_step price closed (db, n) a
          = (update_article_status
              (add_price_snapshot db a.id pd.previous_close pd.current_price
                pd.actual_movement_pct
                (a.claimed_percentage - pd.actual_movement_pct))
              a.id
              (determine_status a.claimed_percentage pd.actual_movement_pct
                a.direction closed), n + 1) by
        simp [update_step, hp]]
      rw [ih _ _ hl]
      exact filter_update_article_status _ _ _ _ ha

/-- C2: the refresh cycle selects only PENDING predictions, and a
prediction whose stored status is already terminal (HIT, PARTIAL or
MISS) is never touched by a refresh cycle: its rows are unchanged. -/
theorem terminal_status_never_rewritten (db : DB)
    (price : String → Option PriceData) (closed : Bool) (a : Article)
    (hnodup : (db.articles.map (fun x => x.id)).Nodup)
    (ha : a ∈ db.articles)
    (hterm : a.status = "HIT" ∨ a.status = "PARTIAL" ∨ a.status = "MISS") :
    (∀ p ∈ get_pending_articles db, p.status = "PENDING") ∧
    ((update_prices db price closed).1.articles.filter
        (fun b => b.id == a.id))
      = db.articles.filter (fun b => b.id == a.id) := by
  constructor
  · intro p hp
    have := List.of_mem_filter hp
    simpa using this
  · apply update_fold_preserves_other_ids
    intro art hart
    have hart2 : art ∈ db.articles := List.mem_of_mem_filter hart
    have hstat : art.status = "PENDING" := by
      have := List.of_mem_filter hart
      simpa using this
    intro heq
    have : art = a :=
      List.inj_on_of_nodup_map hnodup hart2 ha heq
    rw [this] at hstat
    rcases hterm with h | h | h <;> rw [h] at hstat <;> exact absurd hstat (by decide)

/-- Witness for C2: a store holding a single HIT prediction is unchanged
by a refresh cycle with the market closed. -/
theorem terminal_status_never_rewritten_witness :
    (∀ p ∈ get_pending_articles
        ⟨[⟨1, "AAPL", 25, "up", TS.valid 10, "Yahoo Finance", "https://x/1",
           "h1", "HIT", false, "2025-01-02"⟩], [], 2⟩,
      p.status = "PENDING") ∧
    ((update_prices
        ⟨[⟨1, "AAPL", 25, "up", TS.valid 10, "Yahoo Finance", "https://x/1",
           "h1", "HIT", false, "2025-01-02"⟩], [], 2⟩
        (fun _ => none) true).1.articles.filter (fun b => b.id == 1))
      = (DB.mk [⟨1, "AAPL", 25, "up", TS.valid 10, "Yahoo Finance",
           "https://x/1", "h1", "HIT", false, "2025-01-02"⟩] [] 2).articles.filter
          (fun b => b.id == 1) :=
  terminal_status_never_rewritten
    ⟨[⟨1, "AAPL", 25, "up", TS.valid 10, "Yahoo Finance", "https://x/1",
       "h1", "HIT", false, "2025-01-02"⟩], [], 2⟩
    (fun _ => none) true
    ⟨1, "AAPL", 25, "up", TS.valid 10, "Yahoo Finance", "https://x/1",
     "h1", "HIT", false, "2025-01-02"⟩
    (by simp) (by simp) (Or.inl rfl)

/-- C7 helper: the refresh fold updates one prediction per article for
which the oracle has data. -/
theorem update_fold_count (price : String → Option PriceData)
    (closed : Bool) :
    ∀ (l : List Article) (db : DB) (n : Nat),
      (l.foldl (update_step price closed) (db, n)).2
        = n + l.countP (fun a => (price a.ticker).isSome) := by
  intro l
  induction l with
  | nil => intro db n; simp
  | cons a l ih =>
    intro db n
    simp only [List.foldl_cons, List.countP_cons]
    cases hp : price a.ticker with
    | none =>
      rw [show update_step price closed (db, n) a = (db, n) by
        simp [update_step, hp]]
      rw [ih]
      simp [hp]
    | some pd =>
      rw [show update_step price closed (db, n) a
          = (update_article_status
              (add_price_snapshot db a.id pd.previous_close pd.current_price
                pd.actual_movement_pct
                (a.claimed_percentage - pd.actual_movement_pct))
              a.id
              (determine_status a.claimed_percentage pd.actual_movement_pct
                a.direction closed), n + 1) by
        simp [update_step, hp]]
      rw [ih]
      simp [hp]
      omega

/-- A store holding 101 PENDING predictions: the failing input for the
claimed per-cycle batch bound of 100. -/
def db101 : DB :=
  ⟨(List.range 101).map (fun i =>
      { id := i + 1, ticker := "TICK", claimed_percentage := 25,
        direction := "up", article_timestamp := TS.valid 0,
        source_name := "s", article_url := toString i, headline := "h",
        status := "PENDING", is_duplicate := false,
        collection_date := "2025-01-02" }), [], 102⟩

/-- C7 (refuting the claimed bound): a single invocation of the refresh
cycle on a store with 101 pending predictions, with price data available
for every ticker, updates all 101 of them — strictly more than the
claimed per-cycle maximum of 100.  No batch limit exists in the code:
`get_pending_articles` has no LIMIT clause and `update_prices` iterates
over the full result. -/
theorem update_prices_unbounded :
    (update_prices db101 (fun _ => some ⟨100, 125, 25⟩) true).2 = 101 ∧
    100 < (update_prices db101 (fun _ => some ⟨100, 125, 25⟩) true).2 := by
  have h : (update_prices db101 (fun _ => some ⟨100, 125, 25⟩) true).2 = 101 := by
    unfold update_prices
    rw [update_fold_count]
    have hpend : get_pending_articles db101 = db101.articles := by
      rw [get_pending_articles, List.filter_eq_self]
      intro a ha
      simp only [db101, List.mem_map, List.mem_range] at ha
      obtain ⟨i, _, rfl⟩ := ha
      rfl
    rw [hpend]
    simp [db101, List.countP_eq_length_filter, List.filter_map]
  exact ⟨h, by rw [h]; omega⟩

/-! ### The ingestion step: loop body of `app.collect_articles`
(app.py lines 204-238) -/

/-- A candidate produced by the scraper, together with the outcome of
`price_tracker.validate_ticker` (an external oracle call). -/
structure Candidate where
  ticker : String
  claimed_percentage : ℚ
  direction : String
  article_timestamp : TS
  source_name : String
  article_url : String
  headline : String
  valid : Bool

/-- Embedding of one iteration of the `collect_articles` loop: drop the
candidate when ticker validation failed, otherwise run the duplicate
check, insert, and flag the new row as duplicate when the duplicate set
is non-empty. -/
def process_article (db : DB) (now : ℚ) (c : Candidate) (today : String) : DB :=
  if c.valid = false then db
  else
    let duplicates := check_for_duplicates db now c.ticker
      c.claimed_percentage c.article_timestamp today
    let r := add_article db c.ticker c.claimed_percentage c.direction
      c.article_timestamp c.source_name c.article_url c.headline today
    match r.1 with
    | some article_id =>
      if duplicates.isEmpty then r.2 else mark_as_duplicate r.2 article_id
    | none => r.2

/-- C3: the duplicate set contains exactly the prior predictions with
the same ticker, the same collection date, a claimed-percentage
difference of at most 3 points AND a parsed-timestamp difference of at
most 2 hours; and a newly ingested prediction with a non-empty duplicate
set is inserted normally and then flagged `is_duplicate = true`, with
every prior row persisting. -/
theorem check_for_duplicates_exact (db : DB) (now t : ℚ) (ticker : String)
    (claimed : ℚ) (ts : TS) (date today : String) (c : Candidate)
    (hts : parseTS ts = some t)
    (hval : c.valid = true)
    (hurl : ∀ a ∈ db.articles, a.article_url ≠ c.article_url)
    (hid : ∀ a ∈ db.articles, a.id ≠ db.next_id)
    (hdup : check_for_duplicates db now c.ticker c.claimed_percentage
      c.article_timestamp today ≠ []) :
    (∀ i, i ∈ check_for_duplicates db now ticker claimed ts date ↔
      ∃ a ∈ db.articles, a.id = i ∧ a.ticker = ticker ∧
        a.collection_date = date ∧
        |a.claimed_percentage - claimed| ≤ 3 ∧
        ∃ te, parseTS a.article_timestamp = some te ∧ |t - te| ≤ 2) ∧
    (∀ a ∈ db.articles, a ∈ (process_article db now c today).articles) ∧
    (∃ b ∈ (process_article db now c today).articles,
      b.article_url = c.article_url ∧ b.is_duplicate = true) := by
  have hany := any_url_eq_false db.articles c.article_url hurl
  have hproc : process_article db now c today
      = mark_as_duplicate
          (add_article db c.ticker c.claimed_percentage c.direction
            c.article_timestamp c.source_name c.article_url c.headline
            today).2 db.next_id := by
    rw [process_article, if_neg (by simp [hval])]
    have hempty : (check_for_duplicates db now c.ticker c.claimed_percentage
        c.article_timestamp today).isEmpty = false := by
      cases hck : check_for_duplicates db now c.ticker c.claimed_percentage
          c.article_timestamp today with
      | nil => exact absurd hck hdup
      | cons x xs => rfl
    simp only [add_article, hany, Bool.false_eq_true, if_false, hempty]
  refine ⟨?_, ?_, ?_⟩
  · intro i
    simp only [check_for_duplicates, hts, Option.getD_some,
      List.mem_filterMap, List.mem_filter, Bool.and_eq_true, beq_iff_eq,
      decide_eq_true_eq]
    constructor
    · rintro ⟨a, ⟨hmem, ⟨hticker, hdate⟩, hpct⟩, hg⟩
      cases hpa : parseTS a.article_timestamp with
      | none =>
        simp only [hpa] at hg
        exact absurd hg (by simp)
      | some te =>
        simp only [hpa] at hg
        by_cases hd : |t - te| ≤ 2
        · rw [if_pos hd] at hg
          exact ⟨a, hmem, Option.some.inj hg, hticker, hdate, hpct, te,
            hpa, hd⟩
        · rw [if_neg hd] at hg
          exact absurd hg (by simp)
    · rintro ⟨a, hmem, hidi, hticker, hdate, hpct, te, hpa, hd⟩
      refine ⟨a, ⟨hmem, ⟨hticker, hdate⟩, hpct⟩, ?_⟩
      simp only [hpa]
      rw [if_pos hd, hidi]
  · intro a ha
    rw [hproc]
    simp only [add_article, hany, Bool.false_eq_true, if_false,
      mark_as_duplicate, List.map_append, List.mem_append]
    left
    rw [List.mem_map]
    exact ⟨a, ha, by rw [if_neg (hid a ha)]⟩
  · rw [hproc]
    simp only [add_article, hany, Bool.false_eq_true, if_false,
      mark_as_duplicate, List.map_append, List.mem_append]
    refine ⟨Article.mk db.next_id c.ticker c.claimed_percentage c.direction
        c.article_timestamp c.source_name c.article_url c.headline
        "PENDING" true today, ?_, rfl, rfl⟩
    right
    simp

/-- Witness for C3: a store holding one NVDA prediction claiming 24% at
10:00, probed with an NVDA candidate claiming 26% published 50 minutes
later on the same collection date. -/
theorem check_for_duplicates_exact_witness :
    (∀ i, i ∈ check_for_duplicates
        ⟨[⟨1, "NVDA", 24, "up", TS.valid 10, "Yahoo Finance", "https://x/1",
           "h1", "PENDING", false, "2025-01-02"⟩], [], 2⟩
        0 "NVDA" 26 (TS.valid (65 / 6)) "2025-01-02" ↔
      ∃ a ∈ (DB.mk [⟨1, "NVDA", 24, "up", TS.valid 10, "Yahoo Finance",
          "https://x/1", "h1", "PENDING", false, "2025-01-02"⟩] [] 2).articles,
        a.id = i ∧ a.ticker = "NVDA" ∧ a.collection_date = "2025-01-02" ∧
        |a.claimed_percentage - 26| ≤ 3 ∧
        ∃ te, parseTS a.article_timestamp = some te ∧ |(65 / 6 : ℚ) - te| ≤ 2) ∧
    (∀ a ∈ (DB.mk [⟨1, "NVDA", 24, "up", TS.valid 10, "Yahoo Finance",
        "https://x/1", "h1", "PENDING", false, "2025-01-02"⟩] [] 2).articles,
      a ∈ (process_article
        ⟨[⟨1, "NVDA", 24, "up", TS.valid 10, "Yahoo Finance", "https://x/1",
           "h1", "PENDING", false, "2025-01-02"⟩], [], 2⟩
        0
        ⟨"NVDA", 26, "up", TS.valid (65 / 6), "MarketWatch", "https://x/2",
          "h2", true⟩
        "2025-01-02").articles) ∧
    (∃ b ∈ (process_article
        ⟨[⟨1, "NVDA", 24, "up", TS.valid 10, "Yahoo Finance", "https://x/1",
           "h1", "PENDING", false, "2025-01-02"⟩], [], 2⟩
        0
        ⟨"NVDA", 26, "up", TS.valid (65 / 6), "MarketWatch", "https://x/2",
          "h2", true⟩
        "2025-01-02").articles,
      b.article_url = "https://x/2" ∧ b.is_duplicate = true) :=
  check_for_duplicates_exact
    ⟨[⟨1, "NVDA", 24, "up", TS.valid 10, "Yahoo Finance", "https://x/1",
       "h1", "PENDING", false, "2025-01-02"⟩], [], 2⟩
    0 (65 / 6) "NVDA" 26 (TS.valid (65 / 6)) "2025-01-02" "2025-01-02"
    ⟨"NVDA", 26, "up", TS.valid (65 / 6), "MarketWatch", "https://x/2",
      "h2", true⟩
    rfl rfl (by decide) (by decide)
    (by norm_num [check_for_duplicates, parseTS, abs_le,
      Option.some_ne_none])

/-- C8 helper: a record on which the per-row function yields nothing
contributes no members, wherever it sits in the scan. -/
theorem filterMap_filter_skip (p : Article → Bool) (f : Article → Option Nat)
    (bad : Article) (hf : f bad = none) (pre post : List Article) :
    ((pre ++ bad :: post).filter p).filterMap f
      = ((pre ++ post).filter p).filterMap f := by
  rw [List.filter_append, List.filter_append, List.filter_cons]
  by_cases hb : p bad = true
  · rw [if_pos hb, List.filterMap_append, List.filterMap_append,
      List.filterMap_cons_none hf]
  · rw [if_neg hb]

/-- C8: a stored record whose timestamp does not parse contributes no
members to the duplicate set, and the scan over the remaining records
yields exactly what it would have yielded without that record. -/
theorem unparseable_timestamp_skipped (now : ℚ) (ticker : String)
    (claimed : ℚ) (ts : TS) (date : String) (pre post : List Article)
    (sn : List Snapshot) (n : Nat) (bad : Article)
    (hbad : parseTS bad.article_timestamp = none) :
    check_for_duplicates ⟨pre ++ bad :: post, sn, n⟩ now ticker claimed ts date
      = check_for_duplicates ⟨pre ++ post, sn, n⟩ now ticker claimed ts date := by
  simp only [check_for_duplicates]
  exact filterMap_filter_skip _ _ bad (by simp [hbad]) pre post

/-- Witness for C8: a record with an unparseable timestamp sitting
between two well-formed records changes nothing in the duplicate scan. -/
theorem unparseable_timestamp_skipped_witness :
    check_for_duplicates
        ⟨[⟨1, "NVDA", 24, "up", TS.valid 10, "s", "u1", "h", "PENDING",
           false, "d"⟩] ++
          ⟨2, "NVDA", 25, "up", TS.invalid "garbage", "s", "u2", "h",
            "PENDING", false, "d"⟩ ::
          [⟨3, "NVDA", 26, "up", TS.valid 11, "s", "u3", "h", "PENDING",
            false, "d"⟩], [], 4⟩
        0 "NVDA" 25 (TS.valid 10) "d"
      = check_for_duplicates
          ⟨[⟨1, "NVDA", 24, "up", TS.valid 10, "s", "u1", "h", "PENDING",
             false, "d"⟩] ++
            [⟨3, "NVDA", 26, "up", TS.valid 11, "s", "u3", "h", "PENDING",
              false, "d"⟩], [], 4⟩
          0 "NVDA" 25 (TS.valid 10) "d" :=
  unparseable_timestamp_skipped 0 "NVDA" 25 (TS.valid 10) "d"
    [⟨1, "NVDA", 24, "up", TS.valid 10, "s", "u1", "h", "PENDING", false,
      "d"⟩]
    [⟨3, "NVDA", 26, "up", TS.valid 11, "s", "u3", "h", "PENDING", false,
      "d"⟩]
    [] 4
    ⟨2, "NVDA", 25, "up", TS.invalid "garbage", "s", "u2", "h", "PENDING",
      false, "d"⟩
    rfl

/-! ### ClaimExtractor: `NewsScraper.extract_ticker_and_percentage`
(scraper.py lines 24-91)

The regular expressions of the source are embedded as explicit pattern
matchers over character lists.  An exclusion pattern is a sequence of
tokens: a literal, one-or-more whitespace (`\s+`), or an alternation of
literals (covering the optional plural `s?` of the source by listing
both forms, longest first, as regex backtracking does). -/

/-- Case-insensitive prefix test, lowering the text character like the
lowered pattern literal (`re.IGNORECASE`). -/
def charsStartWithCI : List Char → List Char → Bool
  | [], _ => true
  | _ :: _, [] => false
  | p :: ps, c :: cs => (c.toLower == p) && charsStartWithCI ps cs

/-- One token of an exclusion pattern. -/
inductive Tok where
  | lit (w : String)
  | ws
  | anyOf (words : List String)

/-- Fueled matcher: does the token sequence match a prefix of the text?
`\s+` is matched with full backtracking over how many whitespace
characters it absorbs.  Fuel only guards recursion; every step consumes
a token or a character, so `length + length + 1` fuel is exact. -/
def matchToksF : Nat → List Tok → List Char → Bool
  | 0, _, _ => false
  | _ + 1, [], _ => true
  | fuel + 1, Tok.lit w :: rest, s =>
      charsStartWithCI w.toList s && matchToksF fuel rest (s.drop w.length)
  | _ + 1, Tok.ws :: _, [] => false
  | fuel + 1, Tok.ws :: rest, c :: s =>
      c.isWhitespace &&
        (matchToksF fuel rest s || matchToksF fuel (Tok.ws :: rest) s)
  | fuel + 1, Tok.anyOf words :: rest, s =>
      words.any (fun w =>
        charsStartWithCI w.toList s && matchToksF fuel rest (s.drop w.length))

/-- Does the token sequence match a prefix of the text? -/
def matchToks (toks : List Tok) (s : List Char) : Bool :=
  matchToksF (s.length + toks.length + 1) toks s

/-- Model of `re.search`: try the pattern at every position. -/
def matchTokSearch (p : List Tok) : List Char → Bool
  | [] => matchToks p []
  | c :: rest => matchToks p (c :: rest) || matchTokSearch p rest

/-- The fifteen exclusion patterns of scraper.py lines 36-52, in source
order. -/
def exclusion_patterns : List (List Tok) :=
  [[Tok.lit "could", Tok.ws, Tok.anyOf ["surge", "jump", "rise", "gain"]],
   [Tok.lit "might", Tok.ws, Tok.anyOf ["surge", "jump", "rise", "gain"]],
   [Tok.lit "may", Tok.ws, Tok.anyOf ["surge", "jump", "rise", "gain"]],
   [Tok.lit "expected", Tok.ws, Tok.lit "to"],
   [Tok.lit "projected", Tok.ws, Tok.lit "to"],
   [Tok.lit "forecasted", Tok.ws, Tok.lit "to"],
   [Tok.lit "if", Tok.ws],
   [Tok.anyOf ["analysts", "analyst"], Tok.ws, Tok.lit "predict"],
   [Tok.lit "price", Tok.ws, Tok.lit "target"],
   [Tok.lit "last", Tok.ws, Tok.lit "week"],
   [Tok.lit "yesterday"],
   [Tok.lit "last", Tok.ws, Tok.lit "month"],
   [Tok.lit "last", Tok.ws, Tok.lit "quarter"],
   [Tok.lit "surged", Tok.ws, Tok.lit "last"],
   [Tok.lit "dropped", Tok.ws, Tok.lit "last"]]

/-- The exclusion check of `extract_ticker_and_percentage`: lower-case
the text, then search every exclusion pattern. -/
def containsExclusion (text : String) : Bool :=
  exclusion_patterns.any
    (fun p => matchTokSearch p (text.toList.map Char.toLower))

/-- Python word character (`\w`), over the ASCII range the source's
tickers and verbs inhabit. -/
def isWordChar (c : Char) : Bool := c.isAlphanum || c == '_'

/-- Value of a run of decimal digits. -/
def digitsToNat (l : List Char) : Nat :=
  l.foldl (fun acc c => acc * 10 + (c.toNat - 48)) 0

/-- Matcher for `(\d+(?:\.\d+)?)`, returning the parsed value (the model
of Python `float`) and the remaining text. -/
def matchNumber (s : List Char) : Option (ℚ × List Char) :=
  let digits := s.takeWhile (fun c => c.isDigit)
  if digits.isEmpty then none
  else
    let rest1 := s.drop digits.length
    let intPart : ℚ := (digitsToNat digits : ℚ)
    match rest1 with
    | '.' :: r2 =>
      let frac := r2.takeWhile (fun c => c.isDigit)
      if frac.isEmpty then some (intPart, rest1)
      else
        some (intPart + (digitsToNat frac : ℚ) / ((10 : ℚ) ^ frac.length),
          r2.drop frac.length)
    | _ => some (intPart, rest1)

/-- Matcher for `\s+`. -/
def matchWsPlus : List Char → Option (List Char)
  | c :: rest =>
    if c.isWhitespace then some (rest.dropWhile (fun x => x.isWhitespace))
    else none
  | [] => none

/-- Matcher for the ticker group `[A-Z]{2,5}` (case-insensitive, as the
source compiles every movement pattern with `re.IGNORECASE`) followed by
a boundary: the letter run must have length 2-5, and is upper-cased as
`match.group(1).upper()` does. -/
def matchTickerRun (s : List Char) : Option (String × List Char) :=
  let run := s.takeWhile (fun c => c.isAlpha)
  if 2 ≤ run.length && run.length ≤ 5 then
    some (String.mk (run.map Char.toUpper), s.drop run.length)
  else none

/-- Match a sequence of alternation groups, each followed by `\s+`, then
continue with `k`; alternatives are tried in regex order. -/
def matchGroupsThen {α : Type} :
    List (List String) → List Char → (List Char → Option α) → Option α
  | [], s, k => k s
  | g :: gs, s, k =>
      g.findSome? (fun w =>
        if charsStartWithCI w.toList s then
          match matchWsPlus (s.drop w.length) with
          | some r => matchGroupsThen gs r k
          | none => none
        else none)

/-- One movement pattern: an optional leading `\$`, the ticker group,
then verb/keyword alternation groups, then the percentage. -/
structure Shape where
  dollar : Bool
  words : List (List String)

/-- Try one movement pattern at the current position; on success return
the ticker, the magnitude and the remaining text. -/
def matchAtPos (sh : Shape) (s : List Char) : Option (String × ℚ × List Char) :=
  let afterDollar : Option (List Char) :=
    if sh.dollar then
      match s with
      | '$' :: r => some r
      | _ => none
    else some s
  match afterDollar with
  | none => none
  | some s1 =>
    match matchTickerRun s1 with
    | none => none
    | some (tick, s2) =>
      match matchWsPlus s2 with
      | none => none
      | some s3 =>
        matchGroupsThen sh.words s3 (fun s4 =>
          match matchNumber s4 with
          | none => none
          | some (v, s5) =>
            let s6 := s5.dropWhile (fun c => c.isWhitespace)
            match s6 with
            | '%' :: s7 => some (tick, v, s7)
            | _ => none)

/-- Model of `re.finditer`: scan left to right, resuming after each
match, respecting the `\b` before the ticker (a non-dollar pattern can
only start where the previous character is not a word character).
Returns (ticker, magnitude, matched text) triples in order. -/
def scanShape (sh : Shape) : Nat → Bool → List Char → List (String × ℚ × List Char)
  | 0, _, _ => []
  | _ + 1, _, [] => []
  | fuel + 1, prev, c :: rest =>
    let s := c :: rest
    if sh.dollar || !prev then
      match matchAtPos sh s with
      | some (tick, v, restAfter) =>
        let matched := s.take (s.length - restAfter.length)
        let prevAfter :=
          match matched.getLast? with
          | some lc => isWordChar lc
          | none => prev
        (tick, v, matched) :: scanShape sh fuel prevAfter restAfter
      | none => scanShape sh fuel (isWordChar c) rest
    else scanShape sh fuel (isWordChar c) rest

/-- The down-indicating tokens of scraper.py line 85. -/
def downWords : List String := ["plunge", "drop", "fall", "decline", "tumble", "down"]

/-- Substring containment over characters. -/
def hasSubstr (needle : List Char) : List Char → Bool
  | [] => needle.isEmpty
  | c :: rest => needle.isPrefixOf (c :: rest) || hasSubstr needle rest

/-- The four movement patterns of scraper.py lines 24-33, in priority
order; the alternations list the plural form before the bare stem, as
the greedy `s?` of the source does (note `rallies?` matches `rallie`
with optional `s`, not `rally`). -/
def movement_patterns : List Shape :=
  [⟨false, [["surges", "surge", "jumps", "jump", "soars", "soar",
             "rallies", "rallie", "climbs", "climb"]]⟩,
   ⟨false, [["plunges", "plunge", "drops", "drop", "falls", "fall",
             "declines", "decline", "tumbles", "tumble"]]⟩,
   ⟨true, [["up", "down"]]⟩,
   ⟨false, [["stock", "shares"], ["up", "down"]]⟩]

/-- Embedding of `NewsScraper.extract_ticker_and_percentage` (scraper.py
lines 54-91): reject on any exclusion pattern, then take the first match
of the first movement pattern whose percentage reaches the 20-point
threshold, negating the percentage when the matched text contains a
down-indicating token. -/
def extract_ticker_and_percentage (text : String) : Option (String × ℚ × String) :=
  if containsExclusion text then none
  else
    let cs := text.toList
    movement_patterns.findSome? (fun sh =>
      (scanShape sh (cs.length + 1) false cs).findSome? (fun m =>
        if m.2.1 < 20 then none
        else
          let matchedLower := m.2.2.map Char.toLower
          if downWords.any (fun w => hasSubstr w.toList matchedLower) then
            some (m.1, -m.2.1, "down")
          else some (m.1, m.2.1, "up")))

/-- C4: a text matching any exclusion pattern (hedging or stale
reference) is vetoed whole — `extract_ticker_and_percentage` returns
none before any movement pattern is evaluated. -/
theorem exclusion_vetoes_extraction :
    ∀ text : String, containsExclusion text = true →
      extract_ticker_and_percentage text = none := by
  intro text h
  simp [extract_ticker_and_percentage, h]

/-- Witness for C4: a text whose movement pattern would qualify (surge
of 25%) but which contains the stale-reference phrase "yesterday". -/
theorem exclusion_vetoes_extraction_witness :
    containsExclusion "AAPL surges 25% yesterday" = true ∧
    extract_ticker_and_percentage "AAPL surges 25% yesterday" = none :=
  ⟨by decide, exclusion_vetoes_extraction _ (by decide)⟩

end StockTracker
